import Mathlib

/-!
Shallow embedding of the ItemRank-Bot repository (Telegram list/rating bot).

The Python `DataStore` (src/data_store.py) keeps
`data[user_id][list_name][item_name] = [(rating, comment), ...]` in nested
`defaultdict`s.  Python dicts preserve insertion order and have unique keys;
we model each dict level as an association list (`List (String × _)`) with
dict assignment = `assocSet` (replace in place, append if absent) and
`del` = `assocDel`.  The outermost level is a `defaultdict` whose entries are
auto-created on any access, so a user key is always observationally present:
we model the store as a total function `String → Lists` defaulting to `[]`.
Rating scores are Python ints, modelled as `Int`; comments and names are
strings.  Message texts (for the truncation logic) are modelled as `List Char`
(Python `str` indexing/slicing is by code point).
-/

namespace ItemRankBot

abbrev Rating := Int × String
abbrev Items := List (String × List Rating)
abbrev Lists := List (String × Items)
abbrev Store := String → Lists

/-- Python dict lookup `d[k]` / `k in d`: first entry with key `k`. -/
def assocFind {α : Type} : List (String × α) → String → Option α
  | [], _ => none
  | (k', v) :: rest, k => if k' = k then some v else assocFind rest k

/-- Python dict assignment `d[k] = v`: replace in place if present, else append. -/
def assocSet {α : Type} : List (String × α) → String → α → List (String × α)
  | [], k, v => [(k, v)]
  | (k', v') :: rest, k, v =>
      if k' = k then (k', v) :: rest else (k', v') :: assocSet rest k v

/-- In-place mutation of the value stored at a present key `k`
(models `d[k].append(...)`, `del d[k][i]`, `d[k] = new` on a present key). -/
def assocModify {α : Type} : List (String × α) → String → (α → α) → List (String × α)
  | [], _, _ => []
  | (k', v) :: rest, k, f =>
      if k' = k then (k', f v) :: rest else (k', v) :: assocModify rest k f

/-- Python `del d[k]`: remove the entry with key `k`. -/
def assocDel {α : Type} (xs : List (String × α)) (k : String) : List (String × α) :=
  xs.filter (fun p => p.1 != k)

/-- The empty store (`DataStore.__init__`). -/
def emptyStore : Store := fun _ => []

/-- Replace user `u`'s whole lists-dict. -/
def updUser (s : Store) (u : String) (v : Lists) : Store :=
  fun u' => if u' = u then v else s u'

/-- Mutate the items-dict of user `u`'s (present) list `l`. -/
def updList (s : Store) (u l : String) (f : Items → Items) : Store :=
  fun u' => if u' = u then assocModify (s u) l f else s u'

/-- Mutate the rating sequence of user `u`'s (present) item `i` in list `l`. -/
def modifyRatings (s : Store) (u l i : String) (f : List Rating → List Rating) : Store :=
  updList s u l (fun items => assocModify items i f)

/-- `DataStore.list_exists`: `list_name in self.data[user_id]`. -/
def list_exists (s : Store) (u l : String) : Bool :=
  (assocFind (s u) l).isSome

/-- `DataStore.create_list`: if the list is absent, install a fresh empty dict. -/
def create_list (s : Store) (u l : String) : Store :=
  if list_exists s u l then s else updUser s u (assocSet (s u) l [])

/-- `DataStore.get_all_lists`: the keys of the user's dict. -/
def get_all_lists (s : Store) (u : String) : List String :=
  (s u).map Prod.fst

/-- `DataStore.item_exists`:
`list_name in self.data[user_id] and item_name in self.data[user_id][list_name]`. -/
def item_exists (s : Store) (u l i : String) : Bool :=
  match assocFind (s u) l with
  | none => false
  | some items => (assocFind items i).isSome

/-- First half of `DataStore.add_item`:
`if not self.list_exists(user_id, list_name): self.create_list(...)`. -/
def ensure_list (s : Store) (u l : String) : Store :=
  if list_exists s u l then s else create_list s u l

/-- `DataStore.add_item`: ensure the list exists, then add the item with an
empty rating sequence if absent. -/
def add_item (s : Store) (u l i : String) : Store :=
  if item_exists (ensure_list s u l) u l i then ensure_list s u l
  else updList (ensure_list s u l) u l (fun items => assocSet items i [])

/-- `DataStore.get_list_items`: `{}` if the list is absent, else the items dict. -/
def get_list_items (s : Store) (u l : String) : Items :=
  if list_exists s u l then (assocFind (s u) l).getD [] else []

/-- `DataStore.get_item_ratings`: `[]` if the item is absent, else its ratings. -/
def get_item_ratings (s : Store) (u l i : String) : List Rating :=
  if item_exists s u l i then (assocFind ((assocFind (s u) l).getD []) i).getD []
  else []

/-- `DataStore.add_rating`: silently drop the call if the item is absent or the
score is outside `[0, 10]`; otherwise append `(rating, comment)`. -/
def add_rating (s : Store) (u l i : String) (r : Int) (c : String) : Store :=
  if item_exists s u l i = false then s
  else if 0 ≤ r ∧ r ≤ 10 then modifyRatings s u l i (fun rs => rs ++ [(r, c)])
  else s

/-- `DataStore.get_average_rating`: `0` on an empty rating sequence, else
`sum(scores) / len(scores)` (exact rational arithmetic stands in for Python
float division). -/
def get_average_rating (s : Store) (u l i : String) : Rat :=
  let ratings := get_item_ratings s u l i
  if ratings = [] then 0
  else (((ratings.map Prod.fst).sum : Int) : Rat) / ((ratings.length : Nat) : Rat)

/-- `DataStore.delete_list`: `False` if absent, else remove the list. -/
def delete_list (s : Store) (u l : String) : Bool × Store :=
  if list_exists s u l = false then (false, s)
  else (true, updUser s u (assocDel (s u) l))

/-- `DataStore.delete_item`: `False` if absent, else remove the item. -/
def delete_item (s : Store) (u l i : String) : Bool × Store :=
  if item_exists s u l i = false then (false, s)
  else (true, updList s u l (fun items => assocDel items i))

/-- `DataStore.delete_rating`: `False` if the item is absent or the index is
outside `[0, len)`, else delete the rating at that index. -/
def delete_rating (s : Store) (u l i : String) (k : Int) : Bool × Store :=
  if item_exists s u l i = false then (false, s)
  else
    let ratings := (assocFind ((assocFind (s u) l).getD []) i).getD []
    if k < 0 ∨ (ratings.length : Int) ≤ k then (false, s)
    else (true, modifyRatings s u l i (fun rs => rs.eraseIdx k.toNat))

/-- `DataStore.clear_ratings`: `False` if the item is absent, else replace the
rating sequence with `[]`. -/
def clear_ratings (s : Store) (u l i : String) : Bool × Store :=
  if item_exists s u l i = false then (false, s)
  else (true, modifyRatings s u l i (fun _ => []))

/-! ### The store operations as a transition system (for reachability claims) -/

/-- One call to a mutating `DataStore` operation, with arbitrary arguments. -/
inductive Op : Type
  | createList (u l : String)
  | addItem (u l i : String)
  | addRating (u l i : String) (r : Int) (c : String)
  | deleteList (u l : String)
  | deleteItem (u l i : String)
  | deleteRating (u l i : String) (k : Int)
  | clearRatings (u l i : String)

/-- Apply one operation to the store (the `Bool` results are discarded). -/
def applyOp (s : Store) : Op → Store
  | .createList u l => create_list s u l
  | .addItem u l i => add_item s u l i
  | .addRating u l i r c => add_rating s u l i r c
  | .deleteList u l => (delete_list s u l).2
  | .deleteItem u l i => (delete_item s u l i).2
  | .deleteRating u l i k => (delete_rating s u l i k).2
  | .clearRatings u l i => (clear_ratings s u l i).2

/-- Run a sequence of operations from a starting store. -/
def runOps (s : Store) (ops : List Op) : Store :=
  ops.foldl applyOp s

/-- Every rating pair stored anywhere in the store has a score in `[0, 10]`. -/
def ScoresValid (s : Store) : Prop :=
  ∀ u le, le ∈ s u → ∀ ie, ie ∈ le.2 → ∀ r, r ∈ ie.2 → 0 ≤ r.1 ∧ r.1 ≤ 10

/-! ### Handler layer (src/bot_handlers_new.py) -/

/-- Conversation state constant `CREATE_LIST` (`range(6)` gives it value 0). -/
def CREATE_LIST : Int := 0

/-- `ConversationHandler.END` in python-telegram-bot, value `-1`. -/
def conversationEnd : Int := -1

/-- The `create_list` handler: on a duplicate name it replies "You already
have a list named ..." and stays in the `CREATE_LIST` state without touching
the store; otherwise it calls `data_store.create_list` and ends the flow. -/
def create_list_handler (s : Store) (u name : String) : Int × Store :=
  if list_exists s u name then (CREATE_LIST, s)
  else (conversationEnd, create_list s u name)

/-- Context visible to `is_admin`: the chat type string and the outcome of
`context.bot.get_chat_member` (either a status string or a raised error). -/
structure AdminCtx : Type where
  chatType : String
  memberStatus : Except String String

/-- `is_admin`: `True` in a private chat; otherwise `True` iff the membership
lookup returns status 'creator' or 'administrator', and `False` when the
lookup raises (the handler catches every exception). -/
def is_admin (ctx : AdminCtx) : Bool :=
  if ctx.chatType = "private" then true
  else
    match ctx.memberStatus with
    | .error _ => false
    | .ok st => st = "creator" || st = "administrator"

/-- The five entries of `ADMIN_COMMANDS`. -/
def ADMIN_COMMANDS : List String :=
  ["/newlist", "/deletelist", "/deleteitem", "/deleterating", "/clearratings"]

/-- A Telegram message as seen by `admin_required`: `text` may be absent. -/
structure Message : Type where
  text : Option String

/-- The part of an `Update` that `admin_required` inspects. -/
structure Upd : Type where
  message : Option Message

/-- Python `str.split()` pieces: split at whitespace, keeping empty pieces
(they are filtered out afterwards, as `str.split(None)` drops them). -/
def pySplit (cs : List Char) : List (List Char) :=
  cs.foldr
    (fun c acc =>
      if c.isWhitespace then [] :: acc
      else
        match acc with
        | [] => [[c]]
        | t :: ts => (c :: t) :: ts)
    []

/-- Python `str.split()` with no separator: whitespace runs, empties dropped. -/
def pyTokens (t : String) : List String :=
  ((pySplit t.data).filter (fun w => !w.isEmpty)).map (fun w => String.mk w)

/-- Outcome of one call to the `wrapped` closure built by `admin_required`. -/
inductive WrapResult : Type where
  | denied : WrapResult
  | handler : WrapResult
  | raised : WrapResult
deriving DecidableEq

/-- `command = update.message.text.split()[0] if update.message and
update.message.text else ""`: the indexing raises `IndexError` when the text
is non-empty (truthy) but contains only whitespace, so `split()` is empty. -/
def compute_command (u : Upd) : Except Unit String :=
  match u.message with
  | none => .ok ""
  | some m =>
    match m.text with
    | none => .ok ""
    | some t =>
      if t = "" then .ok ""
      else
        match pyTokens t with
        | [] => .error ()
        | c :: _ => .ok c

/-- The `wrapped` closure of `admin_required`: admins fall through to the
original handler; for non-admins, the first token is computed and, when it is
one of `ADMIN_COMMANDS`, the denial reply is sent and the flow ends;
otherwise the original handler runs.  `raised` marks the `IndexError` path. -/
def admin_required_wrapped (isAdm : Bool) (u : Upd) : WrapResult :=
  if isAdm then .handler
  else
    match compute_command u with
    | .error _ => .raised
    | .ok c => if c ∈ ADMIN_COMMANDS then .denied else .handler

/-- Behavior of the wrapper as claim C10 states it: a non-admin update is
denied iff its message text's first whitespace-separated token is literally
in `ADMIN_COMMANDS`, and every other update reaches the wrapped handler. -/
def claimed_wrapped (isAdm : Bool) (u : Upd) : WrapResult :=
  if isAdm then .handler
  else
    match u.message with
    | none => .handler
    | some m =>
      match m.text with
      | none => .handler
      | some t =>
        match pyTokens t with
        | [] => .handler
        | c :: _ => if c ∈ ADMIN_COMMANDS then .denied else .handler

/-! ### Ratings-listing truncation (view_list_ratings) -/

/-- The truncation notice appended in `bot_handlers_new.view_list_ratings`. -/
def TRUNC_NOTICE_EN : List Char := "\n\n... (message truncated due to length)".data

/-- The truncation notice appended in `bot_handlers_spanish.view_list_ratings`. -/
def TRUNC_NOTICE_ES : List Char := "\n\n... (mensaje truncado debido a su longitud)".data

/-- `if len(message) > 4000: message = message[:3950] + notice` — the
long-reply policy applied to the rendered ratings message (text as a sequence
of code points, matching Python `str` slicing). -/
def truncate_ratings_message (notice : List Char) (m : List Char) : List Char :=
  if m.length > 4000 then m.take 3950 ++ notice else m

/-! ### Lemmas about the association-list primitives -/

theorem assocFind_assocSet_self {α : Type} (xs : List (String × α)) (k : String) (v : α) :
    assocFind (assocSet xs k v) k = some v := by
  induction xs with
  | nil => simp [assocSet, assocFind]
  | cons p rest ih =>
    obtain ⟨k₀, v₀⟩ := p
    by_cases h₀ : k₀ = k <;> simp [assocSet, assocFind, h₀, ih]

theorem assocFind_assocSet_ne {α : Type} (xs : List (String × α)) (k : String) (v : α)
    {k' : String} (h : k' ≠ k) :
    assocFind (assocSet xs k v) k' = assocFind xs k' := by
  induction xs with
  | nil => simp [assocSet, assocFind, h.symm]
  | cons p rest ih =>
    obtain ⟨k₀, v₀⟩ := p
    by_cases h₀ : k₀ = k
    · simp [assocSet, assocFind, h₀, h.symm]
    · simp [assocSet, assocFind, h₀, ih]

theorem assocFind_assocModify_self {α : Type} (xs : List (String × α)) (k : String)
    (f : α → α) :
    assocFind (assocModify xs k f) k = (assocFind xs k).map f := by
  induction xs with
  | nil => simp [assocModify, assocFind]
  | cons p rest ih =>
    obtain ⟨k₀, v₀⟩ := p
    by_cases h₀ : k₀ = k <;> simp [assocModify, assocFind, h₀, ih]

theorem assocFind_assocModify_ne {α : Type} (xs : List (String × α)) (k : String)
    (f : α → α) {k' : String} (h : k' ≠ k) :
    assocFind (assocModify xs k f) k' = assocFind xs k' := by
  induction xs with
  | nil => simp [assocModify]
  | cons p rest ih =>
    obtain ⟨k₀, v₀⟩ := p
    by_cases h₀ : k₀ = k
    · simp [assocModify, assocFind, h₀, h.symm]
    · simp [assocModify, assocFind, h₀, ih]

theorem assocFind_assocDel_self {α : Type} (xs : List (String × α)) (k : String) :
    assocFind (assocDel xs k) k = none := by
  induction xs with
  | nil => simp [assocDel, assocFind]
  | cons p rest ih =>
    obtain ⟨k₀, v₀⟩ := p
    simp only [assocDel] at ih ⊢
    by_cases h₀ : k₀ = k
    · simpa [List.filter, h₀] using ih
    · have hb : (k₀ != k) = true := bne_iff_ne.mpr h₀
      simpa [List.filter, hb, assocFind, h₀] using ih

theorem assocFind_assocDel_ne {α : Type} (xs : List (String × α)) (k : String)
    {k' : String} (h : k' ≠ k) :
    assocFind (assocDel xs k) k' = assocFind xs k' := by
  induction xs with
  | nil => simp [assocDel]
  | cons p rest ih =>
    obtain ⟨k₀, v₀⟩ := p
    simp only [assocDel] at ih ⊢
    by_cases h₀ : k₀ = k
    · simpa [List.filter, h₀, assocFind, h.symm] using ih
    · have hb : (k₀ != k) = true := bne_iff_ne.mpr h₀
      simp [List.filter, hb, assocFind, ih]

theorem mem_assocSet {α : Type} {xs : List (String × α)} {k : String} {v : α}
    {p : String × α} (h : p ∈ assocSet xs k v) : p.2 = v ∨ p ∈ xs := by
  induction xs with
  | nil =>
    simp only [assocSet, List.mem_singleton] at h
    subst h; exact Or.inl rfl
  | cons q rest ih =>
    obtain ⟨k₀, v₀⟩ := q
    simp only [assocSet] at h
    by_cases h₀ : k₀ = k
    · simp only [if_pos h₀, List.mem_cons] at h
      rcases h with h | h
      · subst h; exact Or.inl rfl
      · exact Or.inr (List.mem_cons_of_mem _ h)
    · simp only [if_neg h₀, List.mem_cons] at h
      rcases h with h | h
      · subst h; exact Or.inr (List.mem_cons_self _ _)
      · rcases ih h with h' | h'
        · exact Or.inl h'
        · exact Or.inr (List.mem_cons_of_mem _ h')

theorem mem_assocModify {α : Type} {xs : List (String × α)} {k : String}
    {f : α → α} {p : String × α} (h : p ∈ assocModify xs k f) :
    (∃ q, q ∈ xs ∧ p.2 = f q.2) ∨ p ∈ xs := by
  induction xs with
  | nil => simp [assocModify] at h
  | cons q rest ih =>
    obtain ⟨k₀, v₀⟩ := q
    simp only [assocModify] at h
    by_cases h₀ : k₀ = k
    · simp only [if_pos h₀, List.mem_cons] at h
      rcases h with h | h
      · exact Or.inl ⟨(k₀, v₀), List.mem_cons_self _ _, by rw [h]⟩
      · exact Or.inr (List.mem_cons_of_mem _ h)
    · simp only [if_neg h₀, List.mem_cons] at h
      rcases h with h | h
      · subst h; exact Or.inr (List.mem_cons_self _ _)
      · rcases ih h with ⟨q', hq', he⟩ | h'
        · exact Or.inl ⟨q', List.mem_cons_of_mem _ hq', he⟩
        · exact Or.inr (List.mem_cons_of_mem _ h')

theorem mem_assocDel {α : Type} {xs : List (String × α)} {k : String}
    {p : String × α} (h : p ∈ assocDel xs k) : p ∈ xs :=
  List.mem_of_mem_filter h

/-! ### Store-level helper lemmas -/

theorem item_exists_elim {s : Store} {u l i : String}
    (h : item_exists s u l i = true) :
    ∃ its rs, assocFind (s u) l = some its ∧ assocFind its i = some rs := by
  unfold item_exists at h
  cases hl : assocFind (s u) l with
  | none => rw [hl] at h; exact absurd h (by simp)
  | some its =>
    rw [hl] at h
    change (assocFind its i).isSome = true at h
    cases hi : assocFind its i with
    | none => rw [hi] at h; exact absurd h (by simp)
    | some rs => exact ⟨its, rs, rfl, hi⟩

theorem item_exists_intro {s : Store} {u l i : String} {its : Items}
    {rs : List Rating} (hl : assocFind (s u) l = some its)
    (hi : assocFind its i = some rs) : item_exists s u l i = true := by
  unfold item_exists
  rw [hl]
  change (assocFind its i).isSome = true
  rw [hi]
  rfl

theorem get_item_ratings_of_find {s : Store} {u l i : String} {its : Items}
    {rs : List Rating} (hl : assocFind (s u) l = some its)
    (hi : assocFind its i = some rs) : get_item_ratings s u l i = rs := by
  unfold get_item_ratings
  rw [if_pos (item_exists_intro hl hi), hl]
  show (assocFind its i).getD [] = rs
  rw [hi]
  rfl

theorem modifyRatings_apply_self (s : Store) (u l i : String)
    (f : List Rating → List Rating) :
    (modifyRatings s u l i f) u = assocModify (s u) l (fun its => assocModify its i f) := by
  simp [modifyRatings, updList]

theorem item_exists_modifyRatings (s : Store) (u l i : String)
    (f : List Rating → List Rating) (u' l' i' : String) :
    item_exists (modifyRatings s u l i f) u' l' i' = item_exists s u' l' i' := by
  by_cases hu : u' = u
  · subst hu
    unfold item_exists
    rw [modifyRatings_apply_self]
    by_cases hl : l' = l
    · subst hl
      rw [assocFind_assocModify_self]
      cases hfind : assocFind (s u') l' with
      | none => rfl
      | some its =>
        simp only [Option.map_some']
        by_cases hi : i' = i
        · subst hi
          rw [assocFind_assocModify_self]
          cases assocFind its i' <;> rfl
        · rw [assocFind_assocModify_ne _ _ _ hi]
    · rw [assocFind_assocModify_ne _ _ _ hl]
  · have : (modifyRatings s u l i f) u' = s u' := by simp [modifyRatings, updList, hu]
    unfold item_exists
    rw [this]

theorem get_item_ratings_modifyRatings (s : Store) (u l i : String)
    (f : List Rating → List Rating) (h : item_exists s u l i = true) :
    get_item_ratings (modifyRatings s u l i f) u l i = f (get_item_ratings s u l i) := by
  obtain ⟨its, rs, hl, hi⟩ := item_exists_elim h
  have hl' : assocFind ((modifyRatings s u l i f) u) l
      = some (assocModify its i f) := by
    rw [modifyRatings_apply_self, assocFind_assocModify_self, hl]
    rfl
  have hi' : assocFind (assocModify its i f) i = some (f rs) := by
    rw [assocFind_assocModify_self, hi]
    rfl
  rw [get_item_ratings_of_find hl' hi', get_item_ratings_of_find hl hi]

theorem get_item_ratings_raw {s : Store} {u l i : String}
    (h : item_exists s u l i = true) :
    (assocFind ((assocFind (s u) l).getD []) i).getD [] = get_item_ratings s u l i := by
  unfold get_item_ratings
  rw [if_pos h]

/-! ### Claim theorems -/

/-- C1: if the item exists and the score is in `[0, 10]`, `add_rating` appends
exactly `(r, c)` at the end of the item's rating sequence (previous elements
unchanged in order, so `get_item_ratings` afterwards is the old sequence with
`(r, c)` appended); if the item is absent or the score is out of range, the
whole store is unchanged and no error is raised. -/
theorem C1_add_rating (s : Store) (u l i : String) (r : Int) (c : String) :
    (item_exists s u l i = true → 0 ≤ r → r ≤ 10 →
      get_item_ratings (add_rating s u l i r c) u l i
        = get_item_ratings s u l i ++ [(r, c)])
    ∧ (item_exists s u l i = false → add_rating s u l i r c = s)
    ∧ (¬ (0 ≤ r ∧ r ≤ 10) → add_rating s u l i r c = s) := by
  refine ⟨fun h h0 h10 => ?_, fun h => ?_, fun h => ?_⟩
  · rw [show add_rating s u l i r c = modifyRatings s u l i (fun rs => rs ++ [(r, c)]) by
        simp [add_rating, h, h0, h10]]
    exact get_item_ratings_modifyRatings s u l i _ h
  · simp [add_rating, h]
  · cases hex : item_exists s u l i <;> simp [add_rating, hex, h]

/-- C1 witness: on a store with one item already rated `(3, "x")`, adding
rating `(7, "great")` appends it at the end. -/
theorem C1_add_rating_witness :
    get_item_ratings
        (add_rating (add_rating (add_item emptyStore "u" "l" "i") "u" "l" "i" 3 "x")
          "u" "l" "i" 7 "great") "u" "l" "i"
      = get_item_ratings (add_rating (add_item emptyStore "u" "l" "i") "u" "l" "i" 3 "x")
          "u" "l" "i" ++ [(7, "great")] :=
  (C1_add_rating (add_rating (add_item emptyStore "u" "l" "i") "u" "l" "i" 3 "x")
    "u" "l" "i" 7 "great").1 (by decide) (by decide) (by decide)

/-- C2: if the item exists and `0 ≤ k < len`, `delete_rating` returns `true`
and removes exactly the element at index `k` (the sequence becomes the first
`k` elements followed by the elements after index `k`, so later ratings shift
down by one); if the item is absent or `k` is outside `[0, len)`, it returns
`false` and the store is unchanged. -/
theorem C2_delete_rating (s : Store) (u l i : String) (k : Int) :
    (item_exists s u l i = true → 0 ≤ k →
      k < ((get_item_ratings s u l i).length : Int) →
      (delete_rating s u l i k).1 = true ∧
      get_item_ratings (delete_rating s u l i k).2 u l i
        = (get_item_ratings s u l i).take k.toNat
            ++ (get_item_ratings s u l i).drop (k.toNat + 1))
    ∧ (item_exists s u l i = false → delete_rating s u l i k = (false, s))
    ∧ (item_exists s u l i = true →
        (k < 0 ∨ ((get_item_ratings s u l i).length : Int) ≤ k) →
        delete_rating s u l i k = (false, s)) := by
  refine ⟨fun h h0 hlen => ?_, fun h => ?_, fun h hout => ?_⟩
  · have hcond : ¬ (k < 0 ∨
        (((assocFind ((assocFind (s u) l).getD []) i).getD [] : List Rating).length : Int)
          ≤ k) := by
      rw [get_item_ratings_raw h]
      omega
    have heq : delete_rating s u l i k
        = (true, modifyRatings s u l i (fun rs => rs.eraseIdx k.toNat)) := by
      simp only [delete_rating, h]
      rw [if_neg (by simp), if_neg hcond]
    rw [heq]
    refine ⟨rfl, ?_⟩
    rw [get_item_ratings_modifyRatings s u l i _ h,
      List.eraseIdx_eq_take_drop_succ]
  · simp [delete_rating, h]
  · have hcond : (k < 0 ∨
        (((assocFind ((assocFind (s u) l).getD []) i).getD [] : List Rating).length : Int)
          ≤ k) := by
      rw [get_item_ratings_raw h]
      omega
    simp only [delete_rating, h]
    rw [if_neg (by simp), if_pos hcond]

/-- C2 witness: deleting index 1 from the rating sequence
`[(3, "x"), (7, "y"), (9, "z")]` succeeds and leaves `[(3, "x"), (9, "z")]`,
while deleting index 5 fails and leaves the store unchanged. -/
theorem C2_delete_rating_witness :
    (delete_rating
        (add_rating (add_rating (add_rating (add_item emptyStore "u" "l" "i")
          "u" "l" "i" 3 "x") "u" "l" "i" 7 "y") "u" "l" "i" 9 "z")
        "u" "l" "i" 1).1 = true ∧
    get_item_ratings
        (delete_rating
          (add_rating (add_rating (add_rating (add_item emptyStore "u" "l" "i")
            "u" "l" "i" 3 "x") "u" "l" "i" 7 "y") "u" "l" "i" 9 "z")
          "u" "l" "i" 1).2 "u" "l" "i"
      = (get_item_ratings
          (add_rating (add_rating (add_rating (add_item emptyStore "u" "l" "i")
            "u" "l" "i" 3 "x") "u" "l" "i" 7 "y") "u" "l" "i" 9 "z")
          "u" "l" "i").take (1 : Int).toNat
        ++ (get_item_ratings
            (add_rating (add_rating (add_rating (add_item emptyStore "u" "l" "i")
              "u" "l" "i" 3 "x") "u" "l" "i" 7 "y") "u" "l" "i" 9 "z")
            "u" "l" "i").drop ((1 : Int).toNat + 1) :=
  (C2_delete_rating
      (add_rating (add_rating (add_rating (add_item emptyStore "u" "l" "i")
        "u" "l" "i" 3 "x") "u" "l" "i" 7 "y") "u" "l" "i" 9 "z")
      "u" "l" "i" 1).1 (by decide) (by decide) (by decide)

/-- C5: `get_average_rating` returns 0 on an item with no ratings (which
includes an absent item); on a non-empty rating sequence it returns the
arithmetic mean of the scores (stated as mean times length equals sum, in
exact rational arithmetic); over the sequence `[(0, ""), (10, "")]` it
returns exactly 5. -/
theorem C5_get_average_rating (s : Store) (u l i : String) :
    (get_item_ratings s u l i = [] → get_average_rating s u l i = 0)
    ∧ (get_item_ratings s u l i ≠ [] →
        ((get_item_ratings s u l i).length : Rat) * get_average_rating s u l i
          = (((get_item_ratings s u l i).map Prod.fst).sum : Int))
    ∧ (get_item_ratings s u l i = [(0, ""), (10, "")] →
        get_average_rating s u l i = 5) := by
  refine ⟨fun h => ?_, fun h => ?_, fun h => ?_⟩
  · simp [get_average_rating, h]
  · simp only [get_average_rating, if_neg h]
    rw [mul_comm, div_mul_cancel₀]
    have hpos : 0 < (get_item_ratings s u l i).length :=
      List.length_pos.mpr h
    exact_mod_cast Nat.pos_iff_ne_zero.mp hpos
  · simp only [get_average_rating, h]
    rw [if_neg (by decide)]
    norm_num

/-- C5 witness: on an item rated `0` and then `10`, the average is `5`, and
on an absent item the average is `0`. -/
theorem C5_get_average_rating_witness :
    get_average_rating
        (add_rating (add_rating (add_item emptyStore "u" "l" "i") "u" "l" "i" 0 "")
          "u" "l" "i" 10 "") "u" "l" "i" = 5 ∧
    get_average_rating emptyStore "u" "l" "i" = 0 :=
  ⟨(C5_get_average_rating
      (add_rating (add_rating (add_item emptyStore "u" "l" "i") "u" "l" "i" 0 "")
        "u" "l" "i" 10 "") "u" "l" "i").2.2 (by decide),
   (C5_get_average_rating emptyStore "u" "l" "i").1 (by decide)⟩

/-- C6: `delete_list` on an absent list returns `false` and changes nothing;
on a present list it returns `true`, afterwards the list no longer exists,
every item previously in it no longer exists and has an empty rating
sequence, every other list of the user is unchanged, and every other user's
data is unchanged. -/
theorem C6_delete_list (s : Store) (u l : String) :
    (list_exists s u l = false → delete_list s u l = (false, s))
    ∧ (list_exists s u l = true →
        (delete_list s u l).1 = true ∧
        list_exists (delete_list s u l).2 u l = false ∧
        (∀ i, item_exists (delete_list s u l).2 u l i = false ∧
              get_item_ratings (delete_list s u l).2 u l i = []) ∧
        (∀ l', l' ≠ l →
          assocFind ((delete_list s u l).2 u) l' = assocFind (s u) l') ∧
        (∀ u', u' ≠ u → (delete_list s u l).2 u' = s u')) := by
  refine ⟨fun h => ?_, fun h => ?_⟩
  · simp [delete_list, h]
  · have heq : delete_list s u l = (true, updUser s u (assocDel (s u) l)) := by
      simp [delete_list, h]
    rw [heq]
    have happ : (updUser s u (assocDel (s u) l)) u = assocDel (s u) l := by
      simp [updUser]
    have hnone : assocFind ((updUser s u (assocDel (s u) l)) u) l = none := by
      rw [happ, assocFind_assocDel_self]
    have hie : ∀ i, item_exists (updUser s u (assocDel (s u) l)) u l i = false := by
      intro i
      unfold item_exists
      rw [hnone]
    refine ⟨rfl, ?_, fun i => ⟨hie i, ?_⟩, fun l' hl' => ?_, fun u' hu' => ?_⟩
    · simp [list_exists, hnone]
    · simp [get_item_ratings, hie i]
    · show assocFind ((updUser s u (assocDel (s u) l)) u) l' = assocFind (s u) l'
      rw [happ, assocFind_assocDel_ne _ _ hl']
    · simp [updUser, hu']

/-- C6 witness: deleting the existing list "l" (holding a rated item "i")
succeeds, the list and its item are gone with an empty rating sequence, and
deleting from the untouched empty store fails and changes nothing. -/
theorem C6_delete_list_witness :
    (delete_list (add_rating (add_item emptyStore "u" "l" "i") "u" "l" "i" 7 "c")
        "u" "l").1 = true ∧
    item_exists
        (delete_list (add_rating (add_item emptyStore "u" "l" "i") "u" "l" "i" 7 "c")
          "u" "l").2 "u" "l" "i" = false ∧
    delete_list emptyStore "u" "l" = (false, emptyStore) :=
  ⟨((C6_delete_list
      (add_rating (add_item emptyStore "u" "l" "i") "u" "l" "i" 7 "c")
      "u" "l").2 (by decide)).1,
   (((C6_delete_list
      (add_rating (add_item emptyStore "u" "l" "i") "u" "l" "i" 7 "c")
      "u" "l").2 (by decide)).2.2.1 "i").1,
   (C6_delete_list emptyStore "u" "l").1 (by decide)⟩

theorem mem_keys_of_assocFind {α : Type} {xs : List (String × α)} {k : String}
    {v : α} (h : assocFind xs k = some v) : k ∈ xs.map Prod.fst := by
  induction xs with
  | nil => simp [assocFind] at h
  | cons p rest ih =>
    obtain ⟨k₀, v₀⟩ := p
    unfold assocFind at h
    by_cases h₀ : k₀ = k
    · simp [h₀]
    · rw [if_neg h₀] at h
      simp [ih h]

/-- C3: calling the create-list flow's name step with a name that already
exists for the user is a no-op on the store — afterwards exactly one list
with that name exists (dict keys are unique, modelled by the `Nodup`
hypothesis) with its contents unchanged — and the handler returns the
re-prompt state `CREATE_LIST`, distinct from the `END` signal returned on a
successful creation. -/
theorem C3_create_list_handler (s : Store) (u n : String)
    (hnodup : ((s u).map Prod.fst).Nodup) :
    (list_exists s u n = true →
      create_list_handler s u n = (CREATE_LIST, s) ∧
      (((create_list_handler s u n).2 u).map Prod.fst).count n = 1 ∧
      assocFind ((create_list_handler s u n).2 u) n = assocFind (s u) n)
    ∧ (list_exists s u n = false →
        create_list_handler s u n = (conversationEnd, create_list s u n) ∧
        list_exists (create_list_handler s u n).2 u n = true)
    ∧ CREATE_LIST ≠ conversationEnd := by
  refine ⟨fun h => ?_, fun h => ?_, by decide⟩
  · have heq : create_list_handler s u n = (CREATE_LIST, s) := by
      simp [create_list_handler, h]
    have h' : (assocFind (s u) n).isSome = true := h
    obtain ⟨v, hv⟩ := Option.isSome_iff_exists.mp h'
    have hcount : (((create_list_handler s u n).2 u).map Prod.fst).count n = 1 := by
      rw [heq]
      exact List.count_eq_one_of_mem hnodup (mem_keys_of_assocFind hv)
    have hfind : assocFind ((create_list_handler s u n).2 u) n = assocFind (s u) n := by
      rw [heq]
    exact ⟨heq, hcount, hfind⟩
  · have heq : create_list_handler s u n = (conversationEnd, create_list s u n) := by
      simp [create_list_handler, h]
    refine ⟨heq, ?_⟩
    rw [heq]
    show list_exists (create_list s u n) u n = true
    have hfalse : (assocFind (s u) n).isSome = false := h
    simp only [create_list, list_exists, hfalse, Bool.false_eq_true, if_false,
      updUser, if_pos rfl, if_true]
    rw [assocFind_assocSet_self]
    rfl

/-- C3 witness: on a store where user "u" already has a list "A", the handler
leaves the store alone, exactly one list "A" remains, and the signal is the
re-prompt state. -/
theorem C3_create_list_handler_witness :
    create_list_handler (create_list emptyStore "u" "A") "u" "A"
      = (CREATE_LIST, create_list emptyStore "u" "A") ∧
    ((((create_list_handler (create_list emptyStore "u" "A") "u" "A").2 "u").map
        Prod.fst).count "A") = 1 :=
  ⟨((C3_create_list_handler (create_list emptyStore "u" "A") "u" "A"
      (by decide)).1 (by decide)).1,
   ((C3_create_list_handler (create_list emptyStore "u" "A") "u" "A"
      (by decide)).1 (by decide)).2.1⟩

/-- C7: `is_admin` is true in a private chat no matter what the membership
lookup would say; in a non-private chat it is true iff the lookup succeeds
with status 'creator' or 'administrator', and it is false (fail-closed,
no propagation) whenever the lookup raises. -/
theorem C7_is_admin (ctx : AdminCtx) :
    (ctx.chatType = "private" → is_admin ctx = true)
    ∧ (ctx.chatType ≠ "private" → ∀ st, ctx.memberStatus = .ok st →
        (is_admin ctx = true ↔ (st = "creator" ∨ st = "administrator")))
    ∧ (ctx.chatType ≠ "private" → ∀ e, ctx.memberStatus = .error e →
        is_admin ctx = false) := by
  refine ⟨fun h => ?_, fun h st hst => ?_, fun h e he => ?_⟩
  · simp [is_admin, h]
  · simp [is_admin, h, hst]
  · simp [is_admin, h, he]

/-- C7 witness: a private chat is admin even when the lookup would raise; a
group chat with a failing lookup is not admin; a group chat whose lookup
returns 'administrator' is admin. -/
theorem C7_is_admin_witness :
    is_admin ⟨"private", Except.error "boom"⟩ = true ∧
    is_admin ⟨"group", Except.error "boom"⟩ = false ∧
    is_admin ⟨"group", Except.ok "administrator"⟩ = true :=
  ⟨(C7_is_admin ⟨"private", Except.error "boom"⟩).1 (by decide),
   (C7_is_admin ⟨"group", Except.error "boom"⟩).2.2 (by decide) "boom" rfl,
   ((C7_is_admin ⟨"group", Except.ok "administrator"⟩).2.1 (by decide)
      "administrator" rfl).mpr (Or.inr rfl)⟩

/-- C9: if the rendered ratings message exceeds 4000 characters, the text
actually sent is its first 3950 characters followed by the truncation notice
and is itself below the 4000 threshold (in both the English and the Spanish
handler variants); a message of at most 4000 characters is sent unmodified. -/
theorem C9_truncation (m : List Char) :
    (m.length > 4000 →
      truncate_ratings_message TRUNC_NOTICE_EN m = m.take 3950 ++ TRUNC_NOTICE_EN ∧
      (truncate_ratings_message TRUNC_NOTICE_EN m).length < 4000 ∧
      truncate_ratings_message TRUNC_NOTICE_ES m = m.take 3950 ++ TRUNC_NOTICE_ES ∧
      (truncate_ratings_message TRUNC_NOTICE_ES m).length < 4000)
    ∧ (m.length ≤ 4000 →
        truncate_ratings_message TRUNC_NOTICE_EN m = m ∧
        truncate_ratings_message TRUNC_NOTICE_ES m = m) := by
  have hen : TRUNC_NOTICE_EN.length = 39 := by decide
  have hes : TRUNC_NOTICE_ES.length = 45 := by decide
  refine ⟨fun h => ?_, fun h => ?_⟩
  · have ht : (m.take 3950).length = 3950 := by
      rw [List.length_take]
      omega
    refine ⟨by simp [truncate_ratings_message, h], ?_,
      by simp [truncate_ratings_message, h], ?_⟩
    · simp only [truncate_ratings_message, if_pos h, List.length_append, ht, hen]
      omega
    · simp only [truncate_ratings_message, if_pos h, List.length_append, ht, hes]
      omega
  · have h' : ¬ m.length > 4000 := by omega
    exact ⟨by simp [truncate_ratings_message, h'],
      by simp [truncate_ratings_message, h']⟩

/-- C9 witness: a 4001-character message is truncated to its first 3950
characters plus the notice and ends up under 4000 characters; a short
message passes through unchanged. -/
theorem C9_truncation_witness :
    truncate_ratings_message TRUNC_NOTICE_EN (List.replicate 4001 'a')
      = (List.replicate 4001 'a').take 3950 ++ TRUNC_NOTICE_EN ∧
    (truncate_ratings_message TRUNC_NOTICE_EN (List.replicate 4001 'a')).length < 4000 ∧
    truncate_ratings_message TRUNC_NOTICE_EN "hi".data = "hi".data :=
  ⟨((C9_truncation (List.replicate 4001 'a')).1
      (by rw [List.length_replicate]; norm_num)).1,
   ((C9_truncation (List.replicate 4001 'a')).1
      (by rw [List.length_replicate]; norm_num)).2.1,
   ((C9_truncation "hi".data).2 (by decide)).1⟩

/-- C10 counterexample: a non-admin update whose message text is a single
space is, per the claim, outside the denial condition (its text has no first
token in `ADMIN_COMMANDS`), so the claim predicts the wrapped handler runs;
the code instead evaluates `update.message.text.split()[0]` on an empty
split result and raises `IndexError`. -/
theorem C10_counterexample :
    admin_required_wrapped false ⟨some ⟨some " "⟩⟩
      ≠ claimed_wrapped false ⟨some ⟨some " "⟩⟩ := by decide

/-- C10 (amended): an admin update always reaches the wrapped handler; a
non-admin update is denied iff its message text's first
whitespace-separated token is literally one of `ADMIN_COMMANDS`; a
non-admin update whose message text is non-empty but consists only of
whitespace makes the wrapper raise `IndexError` (reaching neither the
denial nor the handler); in every other case the wrapped handler is invoked
as if undecorated. -/
theorem C10_admin_required (u : Upd) :
    admin_required_wrapped true u = WrapResult.handler
    ∧ (admin_required_wrapped false u = WrapResult.denied ↔
        ∃ m t c cs, u.message = some m ∧ m.text = some t ∧
          pyTokens t = c :: cs ∧ c ∈ ADMIN_COMMANDS)
    ∧ (admin_required_wrapped false u = WrapResult.raised ↔
        ∃ m t, u.message = some m ∧ m.text = some t ∧ t ≠ "" ∧ pyTokens t = []) := by
  have hnc : ¬ (("" : String) ∈ ADMIN_COMMANDS) := by decide
  refine ⟨by simp [admin_required_wrapped], ?_, ?_⟩ <;>
  · obtain ⟨msg⟩ := u
    cases msg with
    | none => simp [admin_required_wrapped, compute_command, hnc]
    | some m =>
      obtain ⟨txt⟩ := m
      cases txt with
      | none => simp [admin_required_wrapped, compute_command, hnc]
      | some t =>
        by_cases ht : t = ""
        · subst ht
          simp [admin_required_wrapped, compute_command, hnc,
            show pyTokens "" = [] from rfl]
        · cases htok : pyTokens t with
          | nil => simp [admin_required_wrapped, compute_command, ht, htok]
          | cons c cs =>
            by_cases hc : c ∈ ADMIN_COMMANDS <;>
              simp [admin_required_wrapped, compute_command, ht, htok, hc]

/-- C10 witness: "/deletelist now" from a non-admin is denied, and the same
update from an admin reaches the wrapped handler. -/
theorem C10_admin_required_witness :
    admin_required_wrapped false ⟨some ⟨some "/deletelist now"⟩⟩
      = WrapResult.denied ∧
    admin_required_wrapped true ⟨some ⟨some "/deletelist now"⟩⟩
      = WrapResult.handler :=
  ⟨(C10_admin_required ⟨some ⟨some "/deletelist now"⟩⟩).2.1.mpr
      ⟨⟨some "/deletelist now"⟩, "/deletelist now", "/deletelist", ["now"],
        rfl, rfl, by decide, by decide⟩,
   (C10_admin_required ⟨some ⟨some "/deletelist now"⟩⟩).1⟩

/-! ### The score-range invariant (C4) -/

theorem scoresValid_modifyRatings {s : Store} {u l i : String}
    {f : List Rating → List Rating} (hs : ScoresValid s)
    (hf : ∀ rs, (∀ r, r ∈ rs → 0 ≤ r.1 ∧ r.1 ≤ 10) →
      ∀ r, r ∈ f rs → 0 ≤ r.1 ∧ r.1 ≤ 10) :
    ScoresValid (modifyRatings s u l i f) := by
  intro u' le hle ie hie r hr
  by_cases hu : u' = u
  · subst hu
    rw [modifyRatings_apply_self] at hle
    rcases mem_assocModify hle with ⟨q, hq, hle2⟩ | hle'
    · rw [hle2] at hie
      rcases mem_assocModify hie with ⟨q', hq', hie2⟩ | hie'
      · rw [hie2] at hr
        exact hf q'.2 (fun r' hr' => hs u' q hq q' hq' r' hr') r hr
      · exact hs u' q hq ie hie' r hr
    · exact hs u' le hle' ie hie r hr
  · have happ : (modifyRatings s u l i f) u' = s u' := by
      simp [modifyRatings, updList, hu]
    rw [happ] at hle
    exact hs u' le hle ie hie r hr

theorem scoresValid_create_list {s : Store} (hs : ScoresValid s) (u l : String) :
    ScoresValid (create_list s u l) := by
  unfold create_list
  split
  · exact hs
  · intro u' le hle ie hie r hr
    by_cases hu : u' = u
    · subst hu
      simp only [updUser, if_pos rfl] at hle
      rcases mem_assocSet hle with h2 | h2
      · rw [h2] at hie
        exact absurd hie (List.not_mem_nil ie)
      · exact hs u' le h2 ie hie r hr
    · simp only [updUser, if_neg hu] at hle
      exact hs u' le hle ie hie r hr

theorem scoresValid_ensure_list {s : Store} (hs : ScoresValid s) (u l : String) :
    ScoresValid (ensure_list s u l) := by
  unfold ensure_list
  split
  · exact hs
  · exact scoresValid_create_list hs u l

theorem scoresValid_add_item {s : Store} (hs : ScoresValid s) (u l i : String) :
    ScoresValid (add_item s u l i) := by
  have hs1 : ScoresValid (ensure_list s u l) := scoresValid_ensure_list hs u l
  unfold add_item
  split
  · exact hs1
  · intro u' le hle ie hie r hr
    by_cases hu : u' = u
    · subst hu
      simp only [updList, if_pos rfl] at hle
      rcases mem_assocModify hle with ⟨q, hq, hle2⟩ | hle'
      · rw [hle2] at hie
        rcases mem_assocSet hie with h2 | h2
        · rw [h2] at hr
          exact absurd hr (List.not_mem_nil r)
        · exact hs1 u' q hq ie h2 r hr
      · exact hs1 u' le hle' ie hie r hr
    · simp only [updList, if_neg hu] at hle
      exact hs1 u' le hle ie hie r hr

theorem scoresValid_updList_del {s : Store} (hs : ScoresValid s) (u l i : String) :
    ScoresValid (updList s u l (fun items => assocDel items i)) := by
  intro u' le hle ie hie r hr
  by_cases hu : u' = u
  · subst hu
    simp only [updList, if_pos rfl] at hle
    rcases mem_assocModify hle with ⟨q, hq, hle2⟩ | hle'
    · rw [hle2] at hie
      exact hs u' q hq ie (mem_assocDel hie) r hr
    · exact hs u' le hle' ie hie r hr
  · simp only [updList, if_neg hu] at hle
    exact hs u' le hle ie hie r hr

theorem scoresValid_applyOp {s : Store} (hs : ScoresValid s) (op : Op) :
    ScoresValid (applyOp s op) := by
  cases op with
  | createList u l => exact scoresValid_create_list hs u l
  | addItem u l i => exact scoresValid_add_item hs u l i
  | addRating u l i r c =>
    show ScoresValid (add_rating s u l i r c)
    unfold add_rating
    split
    · exact hs
    · split
      · rename_i hrange
        refine scoresValid_modifyRatings hs (fun rs hrs r' hr' => ?_)
        rcases List.mem_append.mp hr' with h | h
        · exact hrs r' h
        · rw [List.mem_singleton.mp h]
          exact hrange
      · exact hs
  | deleteList u l =>
    show ScoresValid (delete_list s u l).2
    unfold delete_list
    split
    · exact hs
    · intro u' le hle ie hie r hr
      by_cases hu : u' = u
      · subst hu
        simp only [updUser, if_pos rfl] at hle
        exact hs u' le (mem_assocDel hle) ie hie r hr
      · simp only [updUser, if_neg hu] at hle
        exact hs u' le hle ie hie r hr
  | deleteItem u l i =>
    show ScoresValid (delete_item s u l i).2
    unfold delete_item
    split
    · exact hs
    · exact scoresValid_updList_del hs u l i
  | deleteRating u l i k =>
    show ScoresValid (delete_rating s u l i k).2
    unfold delete_rating
    split
    · exact hs
    · dsimp only
      split
      · exact hs
      · refine scoresValid_modifyRatings hs (fun rs hrs r' hr' => ?_)
        rw [List.eraseIdx_eq_take_drop_succ] at hr'
        rcases List.mem_append.mp hr' with h | h
        · exact hrs r' (List.take_subset _ _ h)
        · exact hrs r' (List.drop_subset _ _ h)
  | clearRatings u l i =>
    show ScoresValid (clear_ratings s u l i).2
    unfold clear_ratings
    split
    · exact hs
    · refine scoresValid_modifyRatings hs (fun rs _ r' hr' => ?_)
      exact absurd hr' (List.not_mem_nil r')

/-- C4: in every store reachable from the empty store by any sequence of
`create_list` / `add_item` / `add_rating` / `delete_list` / `delete_item` /
`delete_rating` / `clear_ratings` calls, with arbitrary arguments (including
out-of-range scores), every stored rating has a score in `[0, 10]`. -/
theorem C4_score_range_invariant (ops : List Op) :
    ScoresValid (runOps emptyStore ops) := by
  have hgen : ∀ ops' (s : Store), ScoresValid s → ScoresValid (runOps s ops') := by
    intro ops'
    induction ops' with
    | nil => exact fun s hs => hs
    | cons op rest ih => exact fun s hs => ih _ (scoresValid_applyOp hs op)
  refine hgen ops emptyStore (fun u le hle => ?_)
  exact absurd hle (List.not_mem_nil le)

/-- C4 witness: the invariant instantiated at a concrete run that also tries
an out-of-range score. -/
theorem C4_score_range_invariant_witness :
    ScoresValid (runOps emptyStore
      [Op.createList "u" "l", Op.addItem "u" "l" "i",
       Op.addRating "u" "l" "i" 11 "rejected", Op.addRating "u" "l" "i" 7 "ok"]) :=
  C4_score_range_invariant
    [Op.createList "u" "l", Op.addItem "u" "l" "i",
     Op.addRating "u" "l" "i" 11 "rejected", Op.addRating "u" "l" "i" 7 "ok"]

/-! ### Frame lemmas: which operations can introduce lists/items (C8) -/

theorem false_true_elim {b : Bool} {C : Prop} (h1 : b = false) (h2 : b = true) : C := by
  rw [h1] at h2
  exact absurd h2 Bool.false_ne_true

theorem updUser_self (s : Store) (u : String) (v : Lists) : (updUser s u v) u = v := by
  simp [updUser]

theorem updUser_ne (s : Store) (u : String) (v : Lists) {u' : String} (h : u' ≠ u) :
    (updUser s u v) u' = s u' := by
  simp [updUser, h]

theorem updList_self (s : Store) (u l : String) (f : Items → Items) :
    (updList s u l f) u = assocModify (s u) l f := by
  simp [updList]

theorem updList_ne (s : Store) (u l : String) (f : Items → Items) {u' : String}
    (h : u' ≠ u) : (updList s u l f) u' = s u' := by
  simp [updList, h]

theorem list_exists_updList (s : Store) (u l : String) (f : Items → Items)
    (u' l' : String) :
    list_exists (updList s u l f) u' l' = list_exists s u' l' := by
  unfold list_exists
  by_cases hu : u' = u
  · subst hu
    rw [updList_self]
    by_cases hl : l' = l
    · subst hl
      rw [assocFind_assocModify_self]
      cases assocFind (s u') l' <;> rfl
    · rw [assocFind_assocModify_ne _ _ _ hl]
  · rw [updList_ne _ _ _ _ hu]

theorem list_exists_create_list_elim {s : Store} {u l u' l' : String}
    (h : list_exists (create_list s u l) u' l' = true) :
    list_exists s u' l' = true ∨ (u' = u ∧ l' = l) := by
  unfold create_list at h
  split at h
  · exact Or.inl h
  · by_cases hu : u' = u
    · subst hu
      unfold list_exists at h ⊢
      rw [updUser_self] at h
      by_cases hl : l' = l
      · exact Or.inr ⟨rfl, hl⟩
      · rw [assocFind_assocSet_ne _ _ _ hl] at h
        exact Or.inl h
    · unfold list_exists at h ⊢
      rw [updUser_ne _ _ _ hu] at h
      exact Or.inl h

theorem item_exists_create_list_elim {s : Store} {u l u' l' i' : String}
    (h : item_exists (create_list s u l) u' l' i' = true) :
    item_exists s u' l' i' = true := by
  unfold create_list at h
  split at h
  · exact h
  · by_cases hu : u' = u
    · subst hu
      unfold item_exists at h ⊢
      rw [updUser_self] at h
      by_cases hl : l' = l
      · subst hl
        rw [assocFind_assocSet_self] at h
        exact absurd h Bool.false_ne_true
      · rw [assocFind_assocSet_ne _ _ _ hl] at h
        exact h
    · unfold item_exists at h ⊢
      rw [updUser_ne _ _ _ hu] at h
      exact h

theorem item_exists_updList_elim {s : Store} {u l : String} {f : Items → Items}
    {u' l' i' : String} (h : item_exists (updList s u l f) u' l' i' = true) :
    (u' = u ∧ l' = l ∧ ∃ its, assocFind (s u) l = some its ∧
      (assocFind (f its) i').isSome = true)
    ∨ item_exists s u' l' i' = true := by
  by_cases hu : u' = u
  · subst hu
    by_cases hl : l' = l
    · subst hl
      left
      refine ⟨rfl, rfl, ?_⟩
      unfold item_exists at h
      rw [updList_self, assocFind_assocModify_self] at h
      cases hits : assocFind (s u') l' with
      | none =>
        rw [hits] at h
        exact absurd h Bool.false_ne_true
      | some its =>
        rw [hits] at h
        exact ⟨its, rfl, h⟩
    · right
      unfold item_exists at h ⊢
      rw [updList_self, assocFind_assocModify_ne _ _ _ hl] at h
      exact h
  · right
    unfold item_exists at h ⊢
    rw [updList_ne _ _ _ _ hu] at h
    exact h

theorem list_exists_delete_list_elim {s : Store} {u l u' l' : String}
    (h : list_exists (delete_list s u l).2 u' l' = true) :
    list_exists s u' l' = true := by
  unfold delete_list at h
  split at h
  · exact h
  · have h' : list_exists (updUser s u (assocDel (s u) l)) u' l' = true := h
    by_cases hu : u' = u
    · subst hu
      unfold list_exists at h' ⊢
      rw [updUser_self] at h'
      by_cases hl : l' = l
      · subst hl
        rw [assocFind_assocDel_self] at h'
        exact absurd h' Bool.false_ne_true
      · rw [assocFind_assocDel_ne _ _ hl] at h'
        exact h'
    · unfold list_exists at h' ⊢
      rw [updUser_ne _ _ _ hu] at h'
      exact h'

theorem item_exists_delete_list_elim {s : Store} {u l u' l' i' : String}
    (h : item_exists (delete_list s u l).2 u' l' i' = true) :
    item_exists s u' l' i' = true := by
  unfold delete_list at h
  split at h
  · exact h
  · have h' : item_exists (updUser s u (assocDel (s u) l)) u' l' i' = true := h
    by_cases hu : u' = u
    · subst hu
      unfold item_exists at h' ⊢
      rw [updUser_self] at h'
      by_cases hl : l' = l
      · subst hl
        rw [assocFind_assocDel_self] at h'
        exact absurd h' Bool.false_ne_true
      · rw [assocFind_assocDel_ne _ _ hl] at h'
        exact h'
    · unfold item_exists at h' ⊢
      rw [updUser_ne _ _ _ hu] at h'
      exact h'

/-- C8: read operations never create lists or items — `get_list_items` on an
absent list returns the empty mapping and `get_item_ratings` on an absent
item returns the empty sequence (the reads are pure, so the store is
untouched); and across every store operation, a list can only come into
existence through `create_list` of that very list or `add_item` into it, and
an item only through `add_item` of that very item. -/
theorem C8_no_autovivification :
    (∀ s u l, list_exists s u l = false → get_list_items s u l = [])
    ∧ (∀ s u l i, item_exists s u l i = false → get_item_ratings s u l i = [])
    ∧ (∀ s op u l, list_exists s u l = false →
        list_exists (applyOp s op) u l = true →
        op = Op.createList u l ∨ ∃ i, op = Op.addItem u l i)
    ∧ (∀ s op u l i, item_exists s u l i = false →
        item_exists (applyOp s op) u l i = true →
        op = Op.addItem u l i) := by
  refine ⟨fun s u l h => by simp [get_list_items, h],
    fun s u l i h => by simp [get_item_ratings, h], ?_, ?_⟩
  · intro s op u l hf ht
    cases op with
    | createList u'' l'' =>
      simp only [applyOp] at ht
      rcases list_exists_create_list_elim ht with h | ⟨hu, hl⟩
      · exact false_true_elim hf h
      · subst hu
        subst hl
        exact Or.inl rfl
    | addItem u'' l'' i'' =>
      simp only [applyOp] at ht
      have hens : list_exists (ensure_list s u'' l'') u l = true →
          u = u'' ∧ l = l'' := by
        intro h1
        unfold ensure_list at h1
        split at h1
        · exact false_true_elim hf h1
        · rcases list_exists_create_list_elim h1 with h2 | h2
          · exact false_true_elim hf h2
          · exact h2
      unfold add_item at ht
      split at ht
      · obtain ⟨hu, hl⟩ := hens ht
        subst hu
        subst hl
        exact Or.inr ⟨i'', rfl⟩
      · rw [list_exists_updList] at ht
        obtain ⟨hu, hl⟩ := hens ht
        subst hu
        subst hl
        exact Or.inr ⟨i'', rfl⟩
    | addRating u'' l'' i'' r c =>
      simp only [applyOp] at ht
      unfold add_rating at ht
      split at ht
      · exact false_true_elim hf ht
      · split at ht
        · unfold modifyRatings at ht
          rw [list_exists_updList] at ht
          exact false_true_elim hf ht
        · exact false_true_elim hf ht
    | deleteList u'' l'' =>
      simp only [applyOp] at ht
      exact false_true_elim hf (list_exists_delete_list_elim ht)
    | deleteItem u'' l'' i'' =>
      simp only [applyOp] at ht
      unfold delete_item at ht
      split at ht
      · exact false_true_elim hf ht
      · have ht' : list_exists
            (updList s u'' l'' (fun items => assocDel items i'')) u l = true := ht
        rw [list_exists_updList] at ht'
        exact false_true_elim hf ht'
    | deleteRating u'' l'' i'' k =>
      simp only [applyOp] at ht
      unfold delete_rating at ht
      split at ht
      · exact false_true_elim hf ht
      · dsimp only at ht
        split at ht
        · exact false_true_elim hf ht
        · have ht' : list_exists
              (modifyRatings s u'' l'' i'' (fun rs => rs.eraseIdx k.toNat)) u l
              = true := ht
          unfold modifyRatings at ht'
          rw [list_exists_updList] at ht'
          exact false_true_elim hf ht'
    | clearRatings u'' l'' i'' =>
      simp only [applyOp] at ht
      unfold clear_ratings at ht
      split at ht
      · exact false_true_elim hf ht
      · have ht' : list_exists
            (modifyRatings s u'' l'' i'' (fun _ => [])) u l = true := ht
        unfold modifyRatings at ht'
        rw [list_exists_updList] at ht'
        exact false_true_elim hf ht'
  · intro s op u l i hf ht
    cases op with
    | createList u'' l'' =>
      simp only [applyOp] at ht
      exact false_true_elim hf (item_exists_create_list_elim ht)
    | addItem u'' l'' i'' =>
      simp only [applyOp] at ht
      have hens : item_exists (ensure_list s u'' l'') u l i = true → False := by
        intro h1
        unfold ensure_list at h1
        split at h1
        · exact false_true_elim hf h1
        · exact false_true_elim hf (item_exists_create_list_elim h1)
      unfold add_item at ht
      split at ht
      · exact (hens ht).elim
      · rcases item_exists_updList_elim ht with ⟨hu, hl, its, hits, hsome⟩ | h2
        · by_cases hi : i = i''
          · subst hu
            subst hl
            subst hi
            rfl
          · rw [assocFind_assocSet_ne _ _ _ hi] at hsome
            obtain ⟨rs, hrs⟩ := Option.isSome_iff_exists.mp hsome
            subst hu
            subst hl
            exact (hens (item_exists_intro hits hrs)).elim
        · exact (hens h2).elim
    | addRating u'' l'' i'' r c =>
      simp only [applyOp] at ht
      unfold add_rating at ht
      split at ht
      · exact false_true_elim hf ht
      · split at ht
        · rw [item_exists_modifyRatings] at ht
          exact false_true_elim hf ht
        · exact false_true_elim hf ht
    | deleteList u'' l'' =>
      simp only [applyOp] at ht
      exact false_true_elim hf (item_exists_delete_list_elim ht)
    | deleteItem u'' l'' i'' =>
      simp only [applyOp] at ht
      unfold delete_item at ht
      split at ht
      · exact false_true_elim hf ht
      · have ht' : item_exists
            (updList s u'' l'' (fun items => assocDel items i'')) u l i = true := ht
        rcases item_exists_updList_elim ht' with ⟨hu, hl, its, hits, hsome⟩ | h2
        · by_cases hi : i = i''
          · subst hi
            rw [assocFind_assocDel_self] at hsome
            exact absurd hsome Bool.false_ne_true
          · rw [assocFind_assocDel_ne _ _ hi] at hsome
            obtain ⟨rs, hrs⟩ := Option.isSome_iff_exists.mp hsome
            subst hu
            subst hl
            exact false_true_elim hf (item_exists_intro hits hrs)
        · exact false_true_elim hf h2
    | deleteRating u'' l'' i'' k =>
      simp only [applyOp] at ht
      unfold delete_rating at ht
      split at ht
      · exact false_true_elim hf ht
      · dsimp only at ht
        split at ht
        · exact false_true_elim hf ht
        · rw [item_exists_modifyRatings] at ht
          exact false_true_elim hf ht
    | clearRatings u'' l'' i'' =>
      simp only [applyOp] at ht
      unfold clear_ratings at ht
      split at ht
      · exact false_true_elim hf ht
      · rw [item_exists_modifyRatings] at ht
        exact false_true_elim hf ht

/-- C8 witness: reads on the empty store return empty results, and the one
operation that turned item "i" of list "l" into an existing item on the
empty store is `add_item` of exactly that item. -/
theorem C8_no_autovivification_witness :
    get_list_items emptyStore "u" "l" = [] ∧
    get_item_ratings emptyStore "u" "l" "i" = [] ∧
    Op.addItem "u" "l" "i" = Op.addItem "u" "l" "i" :=
  ⟨C8_no_autovivification.1 emptyStore "u" "l" (by decide),
   C8_no_autovivification.2.1 emptyStore "u" "l" "i" (by decide),
   C8_no_autovivification.2.2.2 emptyStore (Op.addItem "u" "l" "i") "u" "l" "i"
     (by decide) (by decide)⟩

end ItemRankBot
